import Mathlib

/-!
Verification of the PowerBackup backup/restore engine against its
natural-language specification.

The JavaScript source is shallowly embedded: strings are modelled as
`List Char`, the filesystem as `String → Option Content`, and each
fallible external collaborator (zlib, openpgp, the database server,
the dump CLI tools) as an explicit outcome parameter or a small state
machine.  Every definition mirrors one source function, named after it.
-/

namespace PowerBackup

/-- Characters of a JavaScript string. -/
abbrev Chars := List Char

/-- Whitespace test used by `String.prototype.trim` (models the common
whitespace characters; exotic Unicode space classes do not occur in the
inputs considered here). -/
def isWsChar (c : Char) : Bool := c.isWhitespace

/-- Model of `String.prototype.trim`: drop whitespace from both ends. -/
def trimChars (l : Chars) : Chars :=
  ((l.dropWhile isWsChar).reverse.dropWhile isWsChar).reverse

/-- Scan for `needle` at every starting position of `hay`. -/
def containsAux (needle : Chars) : Chars → Bool
  | [] => needle.isPrefixOf []
  | c :: cs => needle.isPrefixOf (c :: cs) || containsAux needle cs

/-- Model of `String.prototype.includes`. -/
def strContains (hay needle : Chars) : Bool := containsAux needle hay

/-- Model of `String.prototype.endsWith`. -/
def strEndsWith (hay suffix : Chars) : Bool := suffix.isSuffixOf hay

/-- Model of `String.prototype.split(sep)` for a single-character
separator. -/
def splitOnChar (sep : Char) : Chars → List Chars
  | [] => [[]]
  | c :: cs =>
    match splitOnChar sep cs with
    | [] => [[]]
    | h :: t => if c = sep then [] :: h :: t else (c :: h) :: t

/-- Number of occurrences of a character, modelling
`(line.match(/c/g) || []).length`. -/
def countChar (l : Chars) (c : Char) : Nat := l.count c

/-- Model of `Array.prototype.join('\n')`. -/
def joinLines (ls : List Chars) : Chars := List.intercalate ['\n'] ls

/-- Model of `endsWith` on Lean `String`s (used for file paths). -/
def endsWithStr (s suffix : String) : Bool := suffix.data.isSuffixOf s.data

/-! ## TableExtractor (src/backup/table-restore.js)

`extractTableSQL` / `extractPostgresTableSQL`: single forward scan over
the dump's lines collecting the target table's CREATE/INSERT statements.
-/

/-- The token `CREATE TABLE \`name\`` searched for by `extractTableSQL`. -/
def mysqlCreateTok (tname : Chars) : Chars :=
  "CREATE TABLE `".data ++ tname ++ "`".data

/-- The token `\`name\`` used in the inner scan of `extractTableSQL`. -/
def mysqlQuoted (tname : Chars) : Chars := "`".data ++ tname ++ "`".data

/-- The token `INSERT INTO \`name\`` used by `extractTableSQL`. -/
def mysqlInsertTok (tname : Chars) : Chars :=
  "INSERT INTO `".data ++ tname ++ "`".data

/-- Inner `while (j < lines.length)` loop of `extractTableSQL`: after the
CREATE TABLE statement closed, collect INSERT statements for the table,
stopping at a CREATE TABLE for a different table.  The `fuel` argument
bounds the iteration count (the JS loop advances `j` by at least one per
iteration, so `fuel = length + 1` is enough). -/
def collectInserts (tname : Chars) : Nat → List Chars → List Chars → List Chars
  | 0, _, acc => acc
  | _ + 1, [], acc => acc
  | fuel + 1, nextLine :: tl, acc =>
    if strContains nextLine "CREATE TABLE".data &&
       !(strContains nextLine (mysqlQuoted tname)) then
      acc
    else if strContains nextLine (mysqlInsertTok tname) then
      let untilTerm := tl.takeWhile (fun l => !(strEndsWith (trimChars l) [';']))
      let rest2 := tl.dropWhile (fun l => !(strEndsWith (trimChars l) [';']))
      match rest2 with
      | [] => acc ++ [nextLine] ++ untilTerm
      | t :: tl2 =>
        collectInserts tname fuel (t :: tl2) (acc ++ [nextLine] ++ untilTerm ++ [t])
    else
      collectInserts tname fuel tl acc

/-- Outer `for` loop of `extractTableSQL`: find the CREATE TABLE line,
collect lines while counting parentheses, and on closing the DDL hand
over to the INSERT scan.  Returns the collected lines and the
`foundTable` flag. -/
def extractLoop (tname : Chars) : List Chars → Bool → Int → List Chars → Bool →
    List Chars × Bool
  | [], _, _, acc, found => (acc, found)
  | line :: tl, inTarget, brace, acc, found =>
    if strContains line (mysqlCreateTok tname) then
      extractLoop tname tl true brace (acc ++ [line]) true
    else if inTarget then
      let acc2 := acc ++ [line]
      let brace2 := brace + (countChar line '(' : Int) - (countChar line ')' : Int)
      if brace2 = 0 && strEndsWith (trimChars line) [';'] then
        (collectInserts tname (tl.length + 1) tl acc2, found)
      else
        extractLoop tname tl inTarget brace2 acc2 found
    else
      extractLoop tname tl inTarget brace acc found

/-- Model of `extractTableSQL(backupContent, tableName)` from table-restore.js:
returns `none` when no CREATE TABLE for the table was found or the
collected text trims to empty, mirroring `return null`. -/
def extractTableSQL (content tname : String) : Option String :=
  let lines := splitOnChar '\n' content.data
  let (acc, found) := extractLoop tname.data lines false 0 [] false
  if !found then none
  else
    let result := joinLines acc
    if trimChars result = [] then none else some (String.mk result)

/-- The token `CREATE TABLE "name"` searched for by
`extractPostgresTableSQL`. -/
def pgCreateTok (tname : Chars) : Chars :=
  "CREATE TABLE \"".data ++ tname ++ "\"".data

/-- The token `"name"` used by `extractPostgresTableSQL`. -/
def pgQuoted (tname : Chars) : Chars := "\"".data ++ tname ++ "\"".data

/-- The `for (const line of lines)` loop of `extractPostgresTableSQL`. -/
def extractPostgresLoop (tname : Chars) : List Chars → Bool → Int → List Chars →
    List Chars
  | [], _, _, acc => acc
  | line :: tl, inTarget, brace, acc =>
    if strContains line (pgCreateTok tname) then
      extractPostgresLoop tname tl true brace (acc ++ [line])
    else if inTarget then
      let acc2 := acc ++ [line]
      let brace2 := brace + (countChar line '(' : Int) - (countChar line ')' : Int)
      if brace2 = 0 && strEndsWith (trimChars line) [';'] then
        extractPostgresLoop tname tl inTarget brace2 acc2
      else if strContains line "CREATE TABLE".data &&
              !(strContains line (pgQuoted tname)) then
        acc2
      else
        extractPostgresLoop tname tl inTarget brace2 acc2
    else
      extractPostgresLoop tname tl inTarget brace acc

/-- Model of `extractPostgresTableSQL(backupContent, tableName)` from
table-restore.js: note it returns the joined string unconditionally
(the empty string, not null, when nothing matched). -/
def extractPostgresTableSQL (content tname : String) : String :=
  String.mk (joinLines
    (extractPostgresLoop tname.data (splitOnChar '\n' content.data) false 0 []))

/-! ## Statement splitting for the restore fallback
(src/backup/restore.js: `executeStatementsIndividually`,
`executePostgresStatementsIndividually`)
-/

/-- The character-by-character scanner of `executeStatementsIndividually`
(MySQL path): arguments are the remaining input, `currentStatement`,
`inString`, `quoteChar`, `escapeNext`, and the statements accumulated so
far. -/
def scanStatements : Chars → Chars → Bool → Option Char → Bool → List Chars →
    List Chars
  | [], cur, _, _, _, acc =>
    if trimChars cur = [] then acc else acc ++ [trimChars cur]
  | c :: rest, cur, inString, quoteChar, escapeNext, acc =>
    if escapeNext then
      scanStatements rest (cur ++ [c]) inString quoteChar false acc
    else if c = '\\' then
      scanStatements rest (cur ++ [c]) inString quoteChar true acc
    else if (c = '\'' || c = '"') && !inString then
      scanStatements rest (cur ++ [c]) true (some c) escapeNext acc
    else if some c = quoteChar && inString then
      scanStatements rest (cur ++ [c]) false none escapeNext acc
    else if c = ';' && !inString then
      if trimChars (cur ++ [c]) = [] then
        scanStatements rest [] inString quoteChar escapeNext acc
      else
        scanStatements rest [] inString quoteChar escapeNext
          (acc ++ [trimChars (cur ++ [c])])
    else
      scanStatements rest (cur ++ [c]) inString quoteChar escapeNext acc

/-- The statement-splitting phase of `executeStatementsIndividually`. -/
def splitSqlStatements (s : Chars) : List Chars :=
  scanStatements s [] false none false []

/-- The statement-splitting phase of
`executePostgresStatementsIndividually`:
`sqlContent.split(';').filter(s => s.trim()).map(s => s.trim())`. -/
def splitPostgresStatements (s : Chars) : List Chars :=
  ((splitOnChar ';' s).filter (fun t => !(trimChars t = []))).map trimChars

/-! ## Retention pruning (scheduler.js: `PowerBackupScheduler.pruneTier`)

A tier directory is a list of `(name, mtime)` entries.  `pruneTier`
filters out `.meta.json` sidecars, sorts the rest ascending by
modification time, and unlinks all but the newest `maxKeep` files
together with their sidecars.
-/

/-- One directory entry: file name and modification time. -/
abbrev FileEntry := String × Nat

/-- Model of `f.endsWith('.meta.json')`. -/
def isMetaName (name : String) : Bool := endsWithStr name ".meta.json"

/-- Model of `files.filter(f => !f.endsWith('.meta.json'))`. -/
def backupFilesOf (dir : List FileEntry) : List FileEntry :=
  dir.filter (fun f => !(isMetaName f.1))

/-- Model of `fileStats.sort((a, b) => a.mtime.getTime() - b.mtime.getTime())`:
ascending sort by modification time (`Array.prototype.sort` with a
numeric comparator; with distinct keys any correct sort produces the same
list). -/
def sortByMtime (fs : List FileEntry) : List FileEntry :=
  List.insertionSort (fun a b => a.2 ≤ b.2) fs

/-- Model of `fileStats.slice(0, fileStats.length - maxKeep)` guarded by the
`backupFiles.length <= maxKeep` early return: the files `pruneTier`
unlinks. -/
def filesToRemove (dir : List FileEntry) (maxKeep : Nat) : List FileEntry :=
  let bf := backupFilesOf dir
  if bf.length ≤ maxKeep then []
  else (sortByMtime bf).take (bf.length - maxKeep)

/-- Effect of `pruneTier` on the tier directory: each removed file is
unlinked along with its `.meta.json` sidecar when present. -/
def pruneTier (dir : List FileEntry) (maxKeep : Nat) : List FileEntry :=
  let rem := filesToRemove dir maxKeep
  dir.filter (fun f =>
    !(rem.any (fun r => r.1 == f.1 || (r.1 ++ ".meta.json") == f.1)))

/-! ## Filesystem and artifact content model

File contents are modelled structurally: a gzip or openpgp layer wraps
the content it was produced from (zlib and openpgp are external
collaborators with lossless round trips); `sql` holds plain text bytes;
`metaJson` holds a metadata sidecar record.
-/

/-- Decidable equality for operation results. -/
instance instDecEqExcept {e a : Type} [DecidableEq e] [DecidableEq a] :
    DecidableEq (Except e a) := fun
  | .error x, .error y =>
    if h : x = y then .isTrue (by rw [h])
    else .isFalse (by intro hh; cases hh; exact h rfl)
  | .error _, .ok _ => .isFalse (by intro h; cases h)
  | .ok _, .error _ => .isFalse (by intro h; cases h)
  | .ok x, .ok y =>
    if h : x = y then .isTrue (by rw [h])
    else .isFalse (by intro hh; cases hh; exact h rfl)

/-- The metadata sidecar record written by `performBackup`. -/
structure Meta where
  toolVersion : String
  db : String
  file : String
  timestamp : String
  recipients : List String
  encrypted : Bool
  sha256 : Nat
  deriving DecidableEq, Repr

/-- Bytes stored in a file. -/
inductive Content
  | sql (text : String)
  | gz (inner : Content)
  | gpg (inner : Content)
  | metaJson (m : Meta)
  deriving DecidableEq, Repr

/-- A filesystem: map from path to file content. -/
abbrev FS := String → Option Content

/-- Empty filesystem. -/
def emptyFS : FS := fun _ => none

/-- Write (create or overwrite) a file. -/
def setFile (fs : FS) (p : String) (c : Content) : FS :=
  fun q => if q = p then some c else fs q

/-- Model of `fs.unlink`. -/
def delFile (fs : FS) (p : String) : FS :=
  fun q => if q = p then none else fs q

/-- Model of `fs.rename(src, dst)`. -/
def renameFile (fs : FS) (src dst : String) : FS :=
  fun q => if q = dst then fs src else if q = src then none else fs q

/-- Model of `gunzipSync`: succeeds exactly on gzip data, recovering the wrapped
bytes. -/
def gunzipModel : Content → Option Content
  | .gz inner => some inner
  | _ => none

/-- Model of `path.basename`: the portion after the last `/`. -/
def baseName (s : String) : String :=
  String.mk ((s.data.reverse.takeWhile (fun c => c ≠ '/')).reverse)

/-! ## SQL marker checks -/

/-- The unanchored validation of `performBackup`:
`sqlContent.match(/(?:CREATE|INSERT|SET|COPY|--|PowerBackup)/)`. -/
def hasSqlMarker (d : String) : Bool :=
  ["CREATE", "INSERT", "SET", "COPY", "--", "PowerBackup"].any
    (fun k => strContains d.data k.data)

/-- An anchored preview check `/^[-\s]*(?:kw1|kw2|...)/`: after the
leading run of `-` and whitespace, the text starts with one of the
keywords (none of the keywords starts with `-` or whitespace, so
maximal-munch is exact; the `slice(0, 1000)` preview window is immaterial
for the inputs considered). -/
def anchoredMarker (kws : List String) (s : Chars) : Bool :=
  kws.any (fun k => k.data.isPrefixOf (s.dropWhile (fun c => c = '-' || isWsChar c)))

/-- Preview check applied to decoded bytes: non-text content (nested
gzip/pgp layers, metadata) never looks like a SQL dump. -/
def contentPreviewOk (kws : List String) : Content → Bool
  | .sql t => anchoredMarker kws t.data
  | _ => false

/-- Keyword list of `decompressBackupFile` (src/utils/file.js). -/
def fileJsKws : List String := ["PowerBackup", "CREATE", "INSERT", "SET", "COPY"]

/-- Keyword list of `testRestoreMysql` (src/backup/restore.js). -/
def mysqlRestoreKws : List String := ["PowerBackup", "CREATE", "INSERT", "SET"]

/-- Keyword list of `testRestorePostgres` (src/backup/restore.js). -/
def pgRestoreKws : List String := ["PowerBackup", "CREATE", "INSERT", "SET", "COPY"]

/-! ## Configuration model -/

/-- Model of `config.gpg`. -/
structure GpgCfg where
  recipients : Option (List String)
  symmetricPassphraseFile : Option String
  deriving DecidableEq, Repr

/-- The application configuration fields the pipeline reads. -/
structure AppConfig where
  backupDir : String
  gpg : Option GpgCfg
  deriving DecidableEq, Repr

/-- One configured database target. -/
structure DbCfg where
  name : String
  dbType : String
  recipients : Option (List String)
  deriving DecidableEq, Repr

/-- Model of `dbConfig.recipients || this.config.gpg?.recipients || []` (JS `||`:
a present array, even empty, is kept). -/
def recipientsOf (db : DbCfg) (cfg : AppConfig) : List String :=
  ((db.recipients).orElse (fun _ => cfg.gpg.bind GpgCfg.recipients)).getD []

/-- Model of `recipients.length || this.config.gpg?.symmetric_passphrase_file`:
whether the encryption step runs. -/
def encryptionConfigured (db : DbCfg) (cfg : AppConfig) : Bool :=
  !(recipientsOf db cfg).isEmpty ||
    (cfg.gpg.bind GpgCfg.symmetricPassphraseFile).isSome

/-! ## src/utils/file.js -/

/-- Model of `decryptBackupFile(filePath, config)`: returns the (possibly new)
path, the filesystem afterwards, and the list of paths read.  `tmpPath`
is the fresh temporary file produced by tmp-promise. -/
def decryptBackupFile (filePath : String) (config : AppConfig) (fs : FS)
    (tmpPath : String) : Except String String × FS × List String :=
  if !(endsWithStr filePath ".gpg") then (.ok filePath, fs, [])
  else
    match config.gpg.bind GpgCfg.symmetricPassphraseFile with
    | none => (.error "No passphrase file configured for decryption", fs, [])
    | some passFile =>
      match fs filePath with
      | none => (.error "ENOENT", fs, [filePath])
      | some encryptedData =>
        match fs passFile with
        | none => (.error "ENOENT", fs, [filePath, passFile])
        | some (.sql passText) =>
          if trimChars passText.data = [] then
            (.error "Empty passphrase in passphrase file", fs, [filePath, passFile])
          else
            match encryptedData with
            | .gpg inner =>
              (.ok tmpPath, setFile fs tmpPath inner, [filePath, passFile])
            | _ => (.error "Error decrypting message", fs, [filePath, passFile])
        | some _ => (.error "invalid passphrase file", fs, [filePath, passFile])

/-- Model of `decompressBackupFile(filePath)`: gunzip into a fresh temporary file
after an anchored SQL-marker check on the decompressed bytes. -/
def decompressBackupFile (filePath : String) (fs : FS) (tmpPath : String) :
    Except String String × FS × List String :=
  if !(endsWithStr filePath ".gz") then (.ok filePath, fs, [])
  else
    match fs filePath with
    | none => (.error "ENOENT", fs, [filePath])
    | some compressedData =>
      match gunzipModel compressedData with
      | none => (.error "incorrect header check", fs, [filePath])
      | some inner =>
        if !(contentPreviewOk fileJsKws inner) then
          (.error "Decompressed content does not appear to be valid SQL dump",
            fs, [filePath])
        else (.ok tmpPath, setFile fs tmpPath inner, [filePath])

/-! ## Verify-mode restore engine (src/backup/restore.js)

The database server is a list of database names.  Outcomes of the
external SQL round trips (bulk execution, the statement fallback, the
verification query) are explicit parameters; the admin connection that
creates and drops the ephemeral database is assumed reachable (its loss
is outside the model).
-/

/-- Outcomes of the fallible SQL interactions inside a verify restore. -/
structure RestoreOutcome where
  bulkOk : Bool
  /-- whether `executeStatementsIndividually` ends with zero successes and
  at least one error, which makes it throw. -/
  fallbackZero : Bool
  verifyOk : Bool
  deriving DecidableEq, Repr

/-- Model of `testRestoreMysql(url, backupFile, tmpDbName, dbConfig)`:
`content` is the result of reading the backup file.  Returns the
operation result together with the server's database list afterwards;
the `try/finally` around the temporary database is modelled by running
`DROP DATABASE IF EXISTS` (an `erase`) on every path that passes the
`CREATE DATABASE`. -/
def testRestoreMysql (content : Option Content) (tmpDb : String)
    (dbs : List String) (o : RestoreOutcome) : Except String Unit × List String :=
  match content with
  | none => (.error "ENOENT", dbs)
  | some c =>
    match gunzipModel c with
    | none => (.error "Failed to decompress backup file", dbs)
    | some inner =>
      if !(contentPreviewOk mysqlRestoreKws inner) then
        (.error "Backup file does not appear to be a valid SQL dump", dbs)
      else if tmpDb ∈ dbs then
        -- CREATE DATABASE fails; the finally still drops the name
        (.error "database exists", dbs.erase tmpDb)
      else
        let dbs1 := tmpDb :: dbs
        let execRes : Except String Unit :=
          if o.bulkOk then .ok ()
          else if o.fallbackZero then
            .error "No statements were executed successfully"
          else .ok ()
        match execRes with
        | .error e => (.error e, dbs1.erase tmpDb)
        | .ok _ =>
          if o.verifyOk then (.ok (), dbs1.erase tmpDb)
          else (.error "verify query failed", dbs1.erase tmpDb)

/-- Model of `testRestorePostgres(url, backupFile, tmpDbName, dbConfig)`: same
shape; the Postgres statement fallback never throws, so only the
verification query can fail after execution. -/
def testRestorePostgres (content : Option Content) (tmpDb : String)
    (dbs : List String) (o : RestoreOutcome) : Except String Unit × List String :=
  match content with
  | none => (.error "ENOENT", dbs)
  | some c =>
    match gunzipModel c with
    | none => (.error "Failed to decompress backup file", dbs)
    | some inner =>
      if !(contentPreviewOk pgRestoreKws inner) then
        (.error "Backup file does not appear to be a valid PostgreSQL dump", dbs)
      else if tmpDb ∈ dbs then
        (.error "database exists", dbs.erase tmpDb)
      else
        let dbs1 := tmpDb :: dbs
        if o.verifyOk then (.ok (), dbs1.erase tmpDb)
        else (.error "verify query failed", dbs1.erase tmpDb)

/-- Model of `restoreBackup(dbConfig, backupFile)`: dispatch on the engine tag
with a fresh `restore_<timestamp>` database name. -/
def restoreBackup (dbType : String) (content : Option Content) (tmpDb : String)
    (dbs : List String) (o : RestoreOutcome) : Except String Unit × List String :=
  if dbType = "mysql" then testRestoreMysql content tmpDb dbs o
  else if dbType = "postgres" then testRestorePostgres content tmpDb dbs o
  else (.error "Unsupported database type", dbs)

/-! ## ArtifactPipeline (src/backup/manager.js: `performBackup`) -/

/-- Environment of one `performBackup` run: the fresh temporary paths
handed out by tmp-promise, the wall-clock timestamp, and the outcomes of
the external steps (dump tool, gzip compression, the scratch
decompression's output bytes, openpgp encryption). -/
structure PBEnv where
  sqlPath : String
  decompPath : String
  timestamp : String
  dumpResult : Option String
  compressOk : Bool
  /-- bytes the gunzip pipeline writes to the scratch file (`none` when
  the pipeline throws). -/
  decompResult : Option Content
  encryptOk : Bool
  deriving Repr

/-- Checksum / metadata / rename / sidecar tail of `performBackup`
(after the encryption decision), with `finalPath` holding the bytes to
be stored.  `hash` abstracts `crypto.createHash('sha256')`. -/
def finishBackup (cfg : AppConfig) (db : DbCfg) (sqlPath timestamp : String)
    (hash : Content → Nat) (fs : FS) (finalPath : String) (encrypted : Bool)
    (recipients : List String) : Except String String × FS :=
  match fs finalPath with
  | none => (.error "ENOENT", delFile fs sqlPath)
  | some finalContent =>
    let checksum := hash finalContent
    let meta : Meta :=
      { toolVersion := "2.0.0", db := db.name, file := baseName finalPath,
        timestamp := timestamp, recipients := recipients,
        encrypted := encrypted, sha256 := checksum }
    let destPath := cfg.backupDir ++ "/" ++ db.name ++ "/hourly/" ++
      baseName finalPath
    let fs2 := renameFile fs finalPath destPath
    let metaPath := destPath ++ ".meta.json"
    let fs3 := setFile fs2 metaPath (.metaJson meta)
    -- S3 upload is fire-and-forget (failure logged, not propagated);
    -- the tmp-promise cleanup() in the finally unlinks sqlPath
    (.ok destPath, delFile fs3 sqlPath)

/-- Model of `BackupManager.performBackup(dbConfig)`: dump → validate → compress →
scratch-decompress (the preview of the decompressed bytes is computed
and discarded; no check is applied to it) → optional encrypt → checksum →
rename into the hourly tier → metadata sidecar → cleanup. -/
def performBackup (cfg : AppConfig) (db : DbCfg) (env : PBEnv)
    (hash : Content → Nat) (fs0 : FS) : Except String String × FS :=
  let fs1 := setFile fs0 env.sqlPath (Content.sql "")
  match env.dumpResult with
  | none => (.error "dump failed", delFile fs1 env.sqlPath)
  | some d =>
    let fs2 := setFile fs1 env.sqlPath (Content.sql d)
    if !(hasSqlMarker d) then
      (.error "Generated SQL dump does not appear to be valid",
        delFile fs2 env.sqlPath)
    else
      let gzPath := env.sqlPath ++ ".gz"
      if !env.compressOk then
        (.error "Compression failed", delFile fs2 env.sqlPath)
      else
        let fs3 := setFile fs2 gzPath (.gz (.sql d))
        let fs4 := setFile fs3 env.decompPath (.sql "")
        match env.decompResult with
        | none => (.error "incorrect header check", delFile fs4 env.sqlPath)
        | some dc =>
          let fs5 := setFile fs4 env.decompPath dc
          -- decompPreview is read from dc and discarded
          let fs6 := delFile fs5 env.decompPath
          let fs7 := delFile fs6 env.sqlPath
          let recipients := recipientsOf db cfg
          if encryptionConfigured db cfg then
            if !env.encryptOk then
              (.error "Encryption failed", delFile fs7 env.sqlPath)
            else
              match fs7 gzPath with
              | none => (.error "ENOENT", delFile fs7 env.sqlPath)
              | some gzContent =>
                let finalPath := gzPath ++ ".gpg"
                let fs8 := setFile fs7 finalPath (.gpg gzContent)
                let fs9 := delFile fs8 gzPath
                finishBackup cfg db env.sqlPath env.timestamp hash fs9 finalPath true recipients
          else
            finishBackup cfg db env.sqlPath env.timestamp hash fs7 gzPath false recipients

/-! ## BackupManager.testRestore (verify-restore orchestration) -/

/-- Fresh names used by one `BackupManager.testRestore` run: the
temporary files handed to `decryptBackupFile` / `decompressBackupFile`
and the ephemeral `restore_<timestamp>` database name. -/
structure ManagerEnv where
  decTmp : String
  gzTmp : String
  tmpDb : String
  deriving Repr

/-- Model of `BackupManager.testRestore(dbConfig, backupFile)`: decrypt when the
name ends in `.gpg`, decompress when the (possibly new) name ends in
`.gz`, log a preview, then hand the resulting file to `restoreBackup`. -/
def managerTestRestore (cfg : AppConfig) (db : DbCfg) (backupFile : String)
    (env : ManagerEnv) (fs : FS) (dbs : List String) (o : RestoreOutcome) :
    Except String Unit × FS × List String :=
  match (if endsWithStr backupFile ".gpg" then
          decryptBackupFile backupFile cfg fs env.decTmp
         else (.ok backupFile, fs, [])) with
  | (.error e, fs1, _) => (.error e, fs1, dbs)
  | (.ok p1, fs1, _) =>
    match (if endsWithStr p1 ".gz" then decompressBackupFile p1 fs1 env.gzTmp
           else (.ok p1, fs1, [])) with
    | (.error e, fs2, _) => (.error e, fs2, dbs)
    | (.ok p2, fs2, _) =>
      -- the preview block only logs; it cannot fail the operation
      let r := restoreBackup db.dbType (fs2 p2) env.tmpDb dbs o
      (r.1, fs2, r.2)

/-! ## DumpProducer strategy orchestration
(src/backup/dump/postgres.js `createPostgresDump`,
src/backup/dump/mysql.js `createMySQLDump`)

Both functions are `try CLI catch { fall back }` with no inspection of
the caught error; the failure kinds live in the model of the external
dump tool.
-/

/-- Why the engine-native dump tool can fail. -/
inductive CliFailKind
  | toolUnavailable
  | toolExecution
  | connection
  deriving DecidableEq, Repr

/-- Result of invoking the engine-native dump tool. -/
inductive CliOutcome
  | success
  | failure (kind : CliFailKind)
  deriving DecidableEq, Repr

/-- Observable trace of one dump production. -/
structure DumpTrace where
  usedCli : Bool
  triedFallback : Bool
  ok : Bool
  deriving DecidableEq, Repr

/-- Model of `createPostgresDump(url, outputPath)`: try `pg_dump`, and on any
caught error run the Node.js driver-level fallback. -/
def createPostgresDump (cli : CliOutcome) (fallbackOk : Bool) : DumpTrace :=
  match cli with
  | .success => ⟨true, false, true⟩
  | .failure _ => ⟨false, true, fallbackOk⟩

/-- Model of `createMySQLDump(url, outputPath, schemaOnly)`: try `mysqldump`, and
on any caught error run the Node.js driver-level fallback. -/
def createMySQLDump (cli : CliOutcome) (fallbackOk : Bool) : DumpTrace :=
  match cli with
  | .success => ⟨true, false, true⟩
  | .failure _ => ⟨false, true, fallbackOk⟩

/-! ## Instances and concrete inputs used by the verification -/

instance : IsTotal FileEntry (fun a b : FileEntry => a.2 ≤ b.2) :=
  ⟨fun a b => Nat.le_total a.2 b.2⟩

instance : IsTrans FileEntry (fun a b : FileEntry => a.2 ≤ b.2) :=
  ⟨fun _ _ _ => Nat.le_trans⟩

def pgDumpFour : String :=
  "CREATE TABLE \"users\" (id int);\nINSERT INTO \"users\" VALUES (1);\nCREATE TABLE \"posts\" (id int);\nINSERT INTO \"posts\" VALUES (2);"

def myDumpMulti : String :=
  "CREATE TABLE `users` (\n  id int\n);\nINSERT INTO `users` VALUES (1);\nCREATE TABLE `posts` (id int);\nINSERT INTO `posts` VALUES (2);"

def d0 : String := "-- PowerBackup MySQL dump\nCREATE TABLE t (x int);"
def cfg0 : AppConfig := ⟨"/backups", none⟩
def cfgEnc : AppConfig := ⟨"/backups", some ⟨none, some "/pass"⟩⟩
def db0 : DbCfg := ⟨"mydb", "mysql", none⟩
def env0 : PBEnv :=
  ⟨"/tmp/sql1", "/tmp/dec1", "2024-01-01T00:00:00Z", some d0, true,
    some (.sql "XYZZY"), true⟩
def hash0 : Content → Nat := fun _ => 7

def menv0 : ManagerEnv := ⟨"/tmp/de1", "/tmp/gz1", "restore_1"⟩
def dirW : List FileEntry := [("a.gz", 1), ("b.gz", 2), ("c.gz", 3), ("a.gz.meta.json", 5)]

end PowerBackup

/-! ## Theorems -/

namespace PowerBackup

theorem sortByMtime_perm (fs : List FileEntry) : List.Perm (sortByMtime fs) fs :=
  List.perm_insertionSort _ fs

theorem sortByMtime_sorted (fs : List FileEntry) :
    (sortByMtime fs).Sorted (fun a b : FileEntry => a.2 ≤ b.2) :=
  List.sorted_insertionSort _ fs

theorem isPrefixOf_self_append (p b : Chars) : p.isPrefixOf (p ++ b) = true := by
  induction p with
  | nil => simp [List.isPrefixOf]
  | cons c cs ih => simp [List.isPrefixOf, ih]

theorem endsWithStr_append (s t : String) : endsWithStr (s ++ t) t = true := by
  unfold endsWithStr
  show (t.data.reverse.isPrefixOf (s ++ t).data.reverse) = true
  have : (s ++ t).data = s.data ++ t.data := rfl
  rw [this, List.reverse_append]
  exact isPrefixOf_self_append _ _

theorem backupFiles_names_nodup (dir : List FileEntry)
    (h : (dir.map Prod.fst).Nodup) :
    ((backupFilesOf dir).map Prod.fst).Nodup := by
  unfold backupFilesOf
  exact h.sublist ((List.filter_sublist _).map _)

theorem backupFiles_not_meta {dir : List FileEntry} {f : FileEntry}
    (hf : f ∈ backupFilesOf dir) : isMetaName f.1 = false := by
  unfold backupFilesOf at hf
  have h2 := (List.mem_filter.mp hf).2
  cases h : isMetaName f.1
  · rfl
  · rw [h] at h2
    simp at h2

theorem prune_kept_perm (dir : List FileEntry) (maxKeep : Nat)
    (hnames : (dir.map Prod.fst).Nodup)
    (hM : maxKeep < (backupFilesOf dir).length) :
    List.Perm (backupFilesOf (pruneTier dir maxKeep))
      ((sortByMtime (backupFilesOf dir)).drop
        ((backupFilesOf dir).length - maxKeep)) := by
  have hR : filesToRemove dir maxKeep =
      (sortByMtime (backupFilesOf dir)).take
        ((backupFilesOf dir).length - maxKeep) := by
    unfold filesToRemove
    rw [if_neg (not_le.mpr hM)]
  set bf := backupFilesOf dir with hbf
  set s := sortByMtime bf with hs
  set k := bf.length - maxKeep with hk
  set p : FileEntry → Bool := fun f =>
    !((s.take k).any (fun r => r.1 == f.1 || (r.1 ++ ".meta.json") == f.1))
    with hp
  have hprune : pruneTier dir maxKeep = dir.filter p := by
    unfold pruneTier
    rw [hR]
  have hkept : backupFilesOf (pruneTier dir maxKeep) = bf.filter p := by
    rw [hprune, hbf]
    unfold backupFilesOf
    rw [List.filter_filter, List.filter_filter]
    apply List.filter_congr
    intro a _
    rw [Bool.and_comm]
  -- names are nodup across the sorted list
  have hsnodup : (s.map Prod.fst).Nodup := by
    have h1 := backupFiles_names_nodup dir hnames
    have h2 : List.Perm (s.map Prod.fst) (bf.map Prod.fst) :=
      (sortByMtime_perm bf).map Prod.fst
    exact h2.nodup_iff.mpr h1
  have hdisj : ∀ a ∈ (s.take k).map Prod.fst, a ∉ (s.drop k).map Prod.fst := by
    have hnd := hsnodup
    rw [← List.take_append_drop k s, List.map_append] at hnd
    exact (List.nodup_append.mp hnd).2.2
  -- elements of the drop part survive the filter
  have hdrop : ∀ g ∈ s.drop k, p g = true := by
    intro g hg
    rw [hp]
    simp only [Bool.not_eq_true']
    rw [List.any_eq_false]
    intro r hr
    simp only [Bool.or_eq_true, not_or, beq_iff_eq]
    constructor
    · intro hrg'
      exact hdisj r.1 (List.mem_map_of_mem _ hr) (hrg' ▸ List.mem_map_of_mem _ hg)
    · intro hmeta'
      have hgbf : g ∈ bf := (sortByMtime_perm bf).mem_iff.mp (List.mem_of_mem_drop hg)
      have h1 : isMetaName g.1 = false := backupFiles_not_meta hgbf
      have h2 : isMetaName g.1 = true := by
        rw [← hmeta']
        exact endsWithStr_append _ _
      rw [h1] at h2
      exact Bool.false_ne_true h2
  have htake : ∀ r ∈ s.take k, p r = false := by
    intro r hr
    rw [hp]
    simp only [Bool.not_eq_false']
    rw [List.any_eq_true]
    exact ⟨r, hr, by simp⟩
  have hfiltertake : (s.take k).filter p = [] := by
    rw [List.filter_eq_nil_iff]
    intro a ha
    rw [htake a ha]
    simp
  have hfilterdrop : (s.drop k).filter p = s.drop k :=
    List.filter_eq_self.mpr hdrop
  have hsf : s.filter p = s.drop k := by
    conv_lhs => rw [← List.take_append_drop k s]
    rw [List.filter_append, hfiltertake, hfilterdrop]
    simp
  rw [hkept, ← hsf]
  exact ((sortByMtime_perm bf).filter p).symm

theorem prune_noop (dir : List FileEntry) (maxKeep : Nat)
    (h : (backupFilesOf dir).length ≤ maxKeep) :
    pruneTier dir maxKeep = dir := by
  unfold pruneTier filesToRemove
  rw [if_pos h]
  simp

theorem filesToRemove_length (dir : List FileEntry) (maxKeep : Nat) :
    (filesToRemove dir maxKeep).length =
      (backupFilesOf dir).length - maxKeep := by
  by_cases h : (backupFilesOf dir).length ≤ maxKeep
  · simp [filesToRemove, h]
  · simp only [filesToRemove, if_neg h]
    rw [List.length_take]
    have := (sortByMtime_perm (backupFilesOf dir)).length_eq
    omega

theorem prune_removed_older (dir : List FileEntry) (maxKeep : Nat)
    (hmt : (backupFilesOf dir).Pairwise (fun a b => a.2 ≠ b.2))
    (hnames : (dir.map Prod.fst).Nodup)
    (hM : maxKeep < (backupFilesOf dir).length) :
    ∀ f ∈ filesToRemove dir maxKeep,
      ∀ g ∈ backupFilesOf (pruneTier dir maxKeep), f.2 < g.2 := by
  intro f hf g hg
  have hR : filesToRemove dir maxKeep =
      (sortByMtime (backupFilesOf dir)).take
        ((backupFilesOf dir).length - maxKeep) := by
    unfold filesToRemove
    rw [if_neg (not_le.mpr hM)]
  rw [hR] at hf
  have hgd : g ∈ (sortByMtime (backupFilesOf dir)).drop
      ((backupFilesOf dir).length - maxKeep) :=
    (prune_kept_perm dir maxKeep hnames hM).mem_iff.mp hg
  have hsorted := sortByMtime_sorted (backupFilesOf dir)
  have hne : (sortByMtime (backupFilesOf dir)).Pairwise
      (fun a b : FileEntry => a.2 ≠ b.2) :=
    ((sortByMtime_perm (backupFilesOf dir)).pairwise_iff
      (fun h e => h e.symm)).mpr hmt
  have hcomb : (sortByMtime (backupFilesOf dir)).Sorted
      (fun a b : FileEntry => a.2 ≤ b.2 ∧ a.2 ≠ b.2) :=
    List.Pairwise.and hsorted hne
  have := hcomb.rel_of_mem_take_of_mem_drop hf hgd
  exact Nat.lt_of_le_of_ne this.1 this.2

/-- Claim C3: for a tier directory with keep-count N > 0 holding M
non-metadata backup files with pairwise-distinct modification times and
distinct names, pruning removes exactly M − N files (so never more than
M − N, and nothing when M ≤ N, where pruning is a no-op on the whole
directory), and when M > N exactly N backup files remain, each strictly
newer than every removed file. -/
theorem pruneTier_retention (dir : List FileEntry) (maxKeep : Nat)
    (hN : 0 < maxKeep)
    (hmt : (backupFilesOf dir).Pairwise (fun a b => a.2 ≠ b.2))
    (hnames : (dir.map Prod.fst).Nodup) :
    (filesToRemove dir maxKeep).length =
      (backupFilesOf dir).length - maxKeep
    ∧ ((backupFilesOf dir).length ≤ maxKeep → pruneTier dir maxKeep = dir)
    ∧ (maxKeep < (backupFilesOf dir).length →
        (backupFilesOf (pruneTier dir maxKeep)).length = maxKeep
        ∧ ∀ f ∈ filesToRemove dir maxKeep,
            ∀ g ∈ backupFilesOf (pruneTier dir maxKeep), f.2 < g.2) := by
  refine ⟨filesToRemove_length dir maxKeep, prune_noop dir maxKeep, fun hM => ⟨?_, prune_removed_older dir maxKeep hmt hnames hM⟩⟩
  have h1 := (prune_kept_perm dir maxKeep hnames hM).length_eq
  rw [List.length_drop] at h1
  have h2 := (sortByMtime_perm (backupFilesOf dir)).length_eq
  omega

theorem scan_in_string (w : Chars) (rest cur : Chars) (acc : List Chars)
    (hw : ∀ c ∈ w, c ≠ '\'' ∧ c ≠ '"' ∧ c ≠ '\\') :
    scanStatements (w ++ rest) cur true (some '\'') false acc =
    scanStatements rest (cur ++ w) true (some '\'') false acc := by
  induction w generalizing cur with
  | nil => simp
  | cons c w ih =>
    obtain ⟨h1, h2, h3⟩ := hw c (by simp)
    have hw' : ∀ x ∈ w, x ≠ '\'' ∧ x ≠ '"' ∧ x ≠ '\\' :=
      fun x hx => hw x (by simp [hx])
    simp only [List.cons_append, scanStatements, h1, h2, h3, if_false,
      Bool.not_true, Bool.and_false, if_neg]
    rw [if_neg (by simp [h3]), if_neg (by simp), if_neg (by simp [h1]),
      if_neg (by simp)]
    simp only [List.append_eq]
    rw [ih (cur ++ [c]) hw']
    simp

theorem scan_open (t : Chars) :
    scanStatements ("SELECT '".data ++ t) [] false none false [] =
    scanStatements t "SELECT '".data true (some '\'') false [] := rfl

theorem scan_close (cur : Chars) (acc : List Chars)
    (h : trimChars ((cur ++ ['\'']) ++ [';']) ≠ []) :
    scanStatements ['\'', ';'] cur true (some '\'') false acc =
    acc ++ [trimChars ((cur ++ ['\'']) ++ [';'])] := by
  simp only [scanStatements]
  rw [if_neg (by decide), if_neg (by decide), if_neg (by simp), if_pos (by simp)]
  rw [if_neg (by decide), if_neg (by decide), if_neg (by simp), if_neg (by simp),
    if_pos (by decide)]
  rw [if_neg h]
  simp [scanStatements, trimChars]

theorem trimChars_wrap (c d : Char) (mid : Chars)
    (hc : isWsChar c = false) (hd : isWsChar d = false) :
    trimChars (c :: (mid ++ [d])) = c :: (mid ++ [d]) := by
  unfold trimChars
  rw [List.dropWhile_cons, if_neg (by simp [hc])]
  have h2 : (c :: (mid ++ [d])).reverse = d :: (mid.reverse ++ [c]) := by simp
  rw [h2, List.dropWhile_cons, if_neg (by simp [hd]), ← h2, List.reverse_reverse]

/-- Claim C6 (amended): only the MySQL fallback splits with the quote-
and escape-aware scanner — a semicolon inside a single-quoted string
literal never produces a statement boundary there; the PostgreSQL
fallback is a plain semicolon split (see the counterexample). -/
theorem mysql_split_literal_safe (w : Chars)
    (hw : ∀ c ∈ w, c ≠ '\'' ∧ c ≠ '"' ∧ c ≠ '\\') :
    splitSqlStatements ("SELECT '".data ++ w ++ "';".data) =
      ["SELECT '".data ++ w ++ "';".data] := by
  have hform : "SELECT '".data ++ w ++ "';".data =
      'S' :: (("ELECT '".data ++ w ++ ['\'']) ++ [';']) := by
    simp [List.append_assoc]
  have htrim : trimChars ((("SELECT '".data ++ w) ++ ['\'']) ++ [';']) =
      "SELECT '".data ++ w ++ "';".data := by
    have : (("SELECT '".data ++ w) ++ ['\'']) ++ [';'] =
        'S' :: (("ELECT '".data ++ w ++ ['\'']) ++ [';']) := by
      simp [List.append_assoc]
    rw [this, trimChars_wrap 'S' ';' _ (by decide) (by decide), ← hform]
  unfold splitSqlStatements
  have hsplit : "SELECT '".data ++ w ++ "';".data =
      "SELECT '".data ++ (w ++ ['\'', ';']) := by
    simp [List.append_assoc]
  rw [hsplit, scan_open, ← List.append_assoc]
  rw [scan_in_string w ['\'', ';'] "SELECT '".data [] hw]
  rw [scan_close _ _ (by rw [htrim, hform]; simp)]
  rw [htrim]
  simp

/-- Claim C6 counterexample: the PostgreSQL fallback splits on the
semicolon inside the string literal of the statement, producing two
fragments. -/
theorem postgres_split_inside_literal :
    splitPostgresStatements "SELECT 'a;b';".data =
      ["SELECT 'a".data, "b'".data] := by decide

set_option maxRecDepth 20000 in
/-- Claim C1 (code bug): evaluating the table extractors on the dump shape
from the spec shows the boundary property failing: the PostgreSQL extractor
returns the entire dump for `users` — both `posts` statements included —
and returns the empty string (not a null NotFound) for a missing table;
the MySQL extractor, as soon as the CREATE TABLE statement spans multiple
lines, also returns the entire dump (its parenthesis counter skips the
opening parenthesis on the CREATE line, so the depth never returns to
zero). -/
theorem extract_includes_other_table :
    extractPostgresTableSQL pgDumpFour "users" = pgDumpFour ∧
    extractPostgresTableSQL pgDumpFour "missing" = "" ∧
    extractTableSQL myDumpMulti "users" = some myDumpMulti ∧
    strContains (extractPostgresTableSQL pgDumpFour "users").data
      "CREATE TABLE \"posts\"".data = true := by
  refine ⟨by decide, by decide, by decide, by decide⟩

-- C6 counterexample

/-- Claim C9 counterexample: a connection-kind CLI failure does trigger
the fallback, contradicting the claim that the fallback is not attempted
for it. -/
theorem dump_fallback_on_connection_error :
    (createPostgresDump (.failure .connection) true).triedFallback = true ∧
    (createMySQLDump (.failure .connection) true).triedFallback = true :=
  ⟨rfl, rfl⟩

/-- Claim C9 (amended): both dump producers catch every CLI failure
alike and always attempt the driver-level fallback — no error
classification exists, so connection and credential failures trigger the
fallback too. -/
theorem dump_fallback_on_any_cli_failure (k : CliFailKind) (fb : Bool) :
    (createPostgresDump (.failure k) fb).triedFallback = true ∧
    (createMySQLDump (.failure k) fb).triedFallback = true :=
  ⟨rfl, rfl⟩

-- C10 theorem

/-- Claim C10: decryption and decompression during restore are decided
solely by the filename suffix: a path not ending in `.gpg` is returned
unchanged by `decryptBackupFile` with no reads and no filesystem change,
and likewise `.gz` for `decompressBackupFile`; consequently a renamed
encrypted or compressed file is passed through undecoded. -/
theorem decode_decided_by_extension (p1 p2 : String) (cfg : AppConfig) (fs : FS)
    (tmp1 tmp2 : String)
    (h1 : endsWithStr p1 ".gpg" = false) (h2 : endsWithStr p2 ".gz" = false) :
    decryptBackupFile p1 cfg fs tmp1 = (.ok p1, fs, []) ∧
    decompressBackupFile p2 fs tmp2 = (.ok p2, fs, []) := by
  constructor
  · simp [decryptBackupFile, h1]
  · simp [decompressBackupFile, h2]

theorem decode_decided_by_extension_witness :
    endsWithStr "renamed-backup" ".gpg" = false ∧
    endsWithStr "renamed-backup" ".gz" = false ∧
    (decryptBackupFile "renamed-backup" ⟨"/b", none⟩ emptyFS "/tmp/t1"
      = (.ok "renamed-backup", emptyFS, []) ∧
     decompressBackupFile "renamed-backup" emptyFS "/tmp/t2"
      = (.ok "renamed-backup", emptyFS, [])) :=
  ⟨by decide, by decide,
   decode_decided_by_extension "renamed-backup" "renamed-backup" ⟨"/b", none⟩
     emptyFS "/tmp/t1" "/tmp/t2" (by decide) (by decide)⟩

-- C7 theorem

/-- Claim C7: for any verify-mode restore whose ephemeral database name
is fresh, whatever the outcomes of bulk execution, the statement fallback
and the verification query, the ephemeral database is absent from the
server when the operation returns, for both the MySQL and the PostgreSQL
engines (the DROP DATABASE IF EXISTS in the finally block is
unconditional). -/
theorem verify_restore_db_absent (content : Option Content) (tmpDb : String)
    (dbs : List String) (o : RestoreOutcome) (h : tmpDb ∉ dbs) :
    tmpDb ∉ (testRestoreMysql content tmpDb dbs o).2 ∧
    tmpDb ∉ (testRestorePostgres content tmpDb dbs o).2 := by
  constructor
  · unfold testRestoreMysql
    repeat' split
    all_goals simp_all [List.erase_cons_head, List.erase_of_not_mem h, h]
  · unfold testRestorePostgres
    repeat' split
    all_goals simp_all [List.erase_cons_head, List.erase_of_not_mem h, h]

theorem self_ne_append (s t : String) (h : t.data ≠ []) : s ≠ s ++ t := by
  intro he
  have hd : (s ++ t).data = s.data ++ t.data := rfl
  have hlen := congrArg (fun x : String => x.data.length) he
  simp only [hd, List.length_append] at hlen
  have : t.data.length = 0 := by omega
  exact h (List.length_eq_zero.mp this)

theorem append_ne_self (s t : String) (h : t.data ≠ []) : s ++ t ≠ s :=
  fun he => self_ne_append s t h he.symm

-- finishBackup: on success, the sidecar checksum is the hash of the
-- bytes at the destination
theorem finishBackup_ok (cfg : AppConfig) (db : DbCfg) (sqlPath ts : String)
    (hash : Content → Nat) (fs : FS) (finalPath : String) (encrypted : Bool)
    (recipients : List String) (dest : String)
    (hrun : (finishBackup cfg db sqlPath ts hash fs finalPath encrypted
      recipients).1 = .ok dest)
    (h1 : sqlPath ≠ dest)
    (h2 : sqlPath ≠ dest ++ ".meta.json") :
    ∃ c m,
      (finishBackup cfg db sqlPath ts hash fs finalPath encrypted
        recipients).2 dest = some c ∧
      (finishBackup cfg db sqlPath ts hash fs finalPath encrypted
        recipients).2 (dest ++ ".meta.json") = some (.metaJson m) ∧
      m.sha256 = hash c := by
  rcases hfc : fs finalPath with _ | fc
  · simp only [finishBackup, hfc] at hrun
    exact Except.noConfusion hrun
  · simp only [finishBackup, hfc] at hrun ⊢
    have hdest : cfg.backupDir ++ "/" ++ db.name ++ "/hourly/" ++
        baseName finalPath = dest := by
      simpa using hrun
    refine ⟨fc, ⟨"2.0.0", db.name, baseName finalPath, ts,
      recipients, encrypted, hash fc⟩, ?_, ?_, rfl⟩
    · simp only [hdest, delFile, setFile, renameFile]
      simp [Ne.symm h1, self_ne_append dest ".meta.json" (by decide), hfc]
    · simp only [hdest, delFile, setFile, renameFile]
      simp [Ne.symm h2]

/-- Claim C4: whenever `performBackup` succeeds, the metadata sidecar
stored next to the artifact records as `sha256` exactly the hash of the
bytes found at the artifact's final stored path — post-encryption bytes
when encryption is configured, else post-compression bytes — because the
checksum is computed at `finalPath` and the rename moves those exact
bytes to the destination. -/
theorem performBackup_checksum (cfg : AppConfig) (db : DbCfg) (env : PBEnv)
    (hash : Content → Nat) (fs0 : FS) (dest : String)
    (hrun : (performBackup cfg db env hash fs0).1 = .ok dest)
    (h1 : env.sqlPath ≠ dest)
    (h2 : env.sqlPath ≠ dest ++ ".meta.json") :
    ∃ c m,
      (performBackup cfg db env hash fs0).2 dest = some c ∧
      (performBackup cfg db env hash fs0).2 (dest ++ ".meta.json") =
        some (.metaJson m) ∧
      m.sha256 = hash c := by
  rcases hd : env.dumpResult with _ | d
  · simp only [performBackup, hd] at hrun
    exact Except.noConfusion hrun
  · cases hm : hasSqlMarker d
    · simp only [performBackup, hd, hm] at hrun
      simp at hrun
    · cases hc : env.compressOk
      · simp only [performBackup, hd, hm, hc] at hrun
        simp at hrun
      · rcases hdc : env.decompResult with _ | dc
        · simp only [performBackup, hd, hm, hc, hdc] at hrun
          simp at hrun
        · cases henc : encryptionConfigured db cfg
          · simp only [performBackup, hd, hm, hc, hdc, henc] at hrun ⊢
            simp only [Bool.false_eq_true, if_false] at hrun ⊢
            exact finishBackup_ok cfg db env.sqlPath env.timestamp hash _ _ _ _ dest hrun h1 h2
          · cases heo : env.encryptOk
            · simp only [performBackup, hd, hm, hc, hdc, henc, heo] at hrun
              simp at hrun
            · simp only [performBackup, hd, hm, hc, hdc, henc, heo] at hrun ⊢
              simp only [Bool.true_eq_false, Bool.not_true, Bool.false_eq_true,
                if_false, if_true] at hrun ⊢
              split at hrun
              · exact Except.noConfusion hrun
              · exact finishBackup_ok cfg db env.sqlPath env.timestamp hash _ _ _ _ dest hrun h1 h2

theorem finishBackup_sql_tmp_removed (cfg : AppConfig) (db : DbCfg)
    (sqlPath ts : String) (hash : Content → Nat) (fs : FS) (fp : String)
    (e : Bool) (r : List String) :
    (finishBackup cfg db sqlPath ts hash fs fp e r).2 sqlPath = none := by
  unfold finishBackup
  split <;> simp [delFile]

theorem performBackup_sql_tmp_removed (cfg : AppConfig) (db : DbCfg)
    (env : PBEnv) (hash : Content → Nat) (fs0 : FS) :
    (performBackup cfg db env hash fs0).2 env.sqlPath = none := by
  unfold performBackup
  repeat' split
  all_goals try simp [delFile]
  all_goals try apply finishBackup_sql_tmp_removed
  all_goals split <;>
    first
      | simp [delFile]
      | apply finishBackup_sql_tmp_removed

/-- Claim C5 (amended): the pipeline decompresses a scratch copy after
compressing (a gunzip failure aborts the commit with an error), but it
never re-runs the SQL-marker check on the decompressed bytes: the entire
commit result is independent of the bytes the scratch decompression
produces. -/
theorem performBackup_ignores_decomp_bytes (cfg : AppConfig) (db : DbCfg)
    (env : PBEnv) (hash : Content → Nat) (fs0 : FS) (dc dc' : Content)
    (d : String) (hd : env.dumpResult = some d) (hm : hasSqlMarker d = true)
    (hc : env.compressOk = true) :
    performBackup cfg db {env with decompResult := some dc} hash fs0 =
      performBackup cfg db {env with decompResult := some dc'} hash fs0
    ∧ (performBackup cfg db {env with decompResult := none} hash fs0).1 =
        .error "incorrect header check" := by
  have hfs : ∀ (fsx : FS) (p : String),
      delFile (setFile fsx p dc) p = delFile (setFile fsx p dc') p := by
    intro fsx p
    funext q
    by_cases h : q = p <;> simp [delFile, setFile, h]
  constructor
  · simp only [performBackup, hd, hm, hc, Bool.not_true, Bool.false_eq_true,
      if_false]
    rw [hfs]
  · simp only [performBackup, hd, hm, hc, Bool.not_true, Bool.false_eq_true,
      if_false]

theorem strAppend_assoc (a b c : String) : (a ++ b) ++ c = a ++ (b ++ c) := by
  apply String.ext
  show (a.data ++ b.data) ++ c.data = a.data ++ (b.data ++ c.data)
  exact List.append_assoc _ _ _

theorem finishBackup_cleans (cfg : AppConfig) (db : DbCfg) (sqlPath ts : String)
    (hash : Content → Nat) (fs : FS) (fp : String) (e : Bool) (r : List String)
    (dest q : String)
    (hrun : (finishBackup cfg db sqlPath ts hash fs fp e r).1 = .ok dest)
    (hqm : q ≠ dest ++ ".meta.json") (hqd : q ≠ dest)
    (hcases : q = sqlPath ∨ q = fp ∨ fs q = none) :
    (finishBackup cfg db sqlPath ts hash fs fp e r).2 q = none := by
  rcases hfc : fs fp with _ | fc
  · simp only [finishBackup, hfc] at hrun
    exact Except.noConfusion hrun
  · simp only [finishBackup, hfc] at hrun ⊢
    have hdest : cfg.backupDir ++ "/" ++ db.name ++ "/hourly/" ++ baseName fp =
        dest := by simpa using hrun
    rw [hdest]
    by_cases hqs : q = sqlPath
    · simp [delFile, hqs]
    · rcases hcases with h | h | h
      · exact absurd h hqs
      · subst h
        simp [delFile, setFile, renameFile, hqs, hqm, hqd]
      · simp [delFile, setFile, renameFile, hqs, hqm, hqd, h]

theorem performBackup_success_cleanup (cfg : AppConfig) (db : DbCfg)
    (env : PBEnv) (hash : Content → Nat) (fs0 : FS) (dest : String)
    (hrun : (performBackup cfg db env hash fs0).1 = .ok dest)
    (hgzm : env.sqlPath ++ ".gz" ≠ dest ++ ".meta.json")
    (hgzd : env.sqlPath ++ ".gz" ≠ dest)
    (hdpm : env.decompPath ≠ dest ++ ".meta.json")
    (hdpd : env.decompPath ≠ dest)
    (hfpm : env.sqlPath ++ ".gz" ++ ".gpg" ≠ dest ++ ".meta.json")
    (hfpd : env.sqlPath ++ ".gz" ++ ".gpg" ≠ dest)
    (hdg : env.decompPath ≠ env.sqlPath ++ ".gz")
    (hdgp : env.decompPath ≠ env.sqlPath ++ ".gz" ++ ".gpg") :
    (performBackup cfg db env hash fs0).2 (env.sqlPath ++ ".gz") = none ∧
    (performBackup cfg db env hash fs0).2 env.decompPath = none ∧
    (encryptionConfigured db cfg = true →
      (performBackup cfg db env hash fs0).2
        (env.sqlPath ++ ".gz" ++ ".gpg") = none) := by
  rcases hd : env.dumpResult with _ | d
  · simp only [performBackup, hd] at hrun
    exact Except.noConfusion hrun
  · cases hm : hasSqlMarker d
    · simp only [performBackup, hd, hm] at hrun
      simp at hrun
    · cases hc : env.compressOk
      · simp only [performBackup, hd, hm, hc] at hrun
        simp at hrun
      · rcases hdc : env.decompResult with _ | dc
        · simp only [performBackup, hd, hm, hc, hdc] at hrun
          simp at hrun
        · cases henc : encryptionConfigured db cfg
          · simp only [performBackup, hd, hm, hc, hdc, henc] at hrun ⊢
            simp only [Bool.false_eq_true, if_false] at hrun ⊢
            refine ⟨?_, ?_, fun hF => absurd hF (by simp)⟩
            · exact finishBackup_cleans cfg db env.sqlPath env.timestamp hash
                _ _ _ _ dest _ hrun hgzm hgzd (Or.inr (Or.inl rfl))
            · refine finishBackup_cleans cfg db env.sqlPath env.timestamp hash
                _ _ _ _ dest _ hrun hdpm hdpd (Or.inr (Or.inr ?_))
              have hsg : env.sqlPath ≠ env.sqlPath ++ ".gz" :=
                self_ne_append _ _ (by decide)
              by_cases hds : env.decompPath = env.sqlPath <;>
                simp [delFile, setFile, hds, hdg, hsg]
          · cases heo : env.encryptOk
            · simp only [performBackup, hd, hm, hc, hdc, henc, heo] at hrun
              simp at hrun
            · simp only [performBackup, hd, hm, hc, hdc, henc, heo] at hrun ⊢
              simp only [Bool.true_eq_false, Bool.not_true, Bool.false_eq_true,
                if_false, if_true] at hrun ⊢
              split at hrun
              · exact Except.noConfusion hrun
              · refine ⟨?_, ?_, fun _ => ?_⟩
                · refine finishBackup_cleans cfg db env.sqlPath env.timestamp
                    hash _ _ _ _ dest _ hrun hgzm hgzd (Or.inr (Or.inr ?_))
                  simp [delFile]
                · refine finishBackup_cleans cfg db env.sqlPath env.timestamp
                    hash _ _ _ _ dest _ hrun hdpm hdpd (Or.inr (Or.inr ?_))
                  have hsg : env.sqlPath ≠ env.sqlPath ++ ".gz" :=
                    self_ne_append _ _ (by decide)
                  have hsgp : env.sqlPath ≠ env.sqlPath ++ ".gz" ++ ".gpg" := by
                    rw [strAppend_assoc]
                    exact self_ne_append _ _ (by decide)
                  by_cases hds : env.decompPath = env.sqlPath <;>
                    simp [delFile, setFile, hds, hdg, hdgp, hsg, hsgp]
                · exact finishBackup_cleans cfg db env.sqlPath env.timestamp
                    hash _ _ _ _ dest _ hrun hfpm hfpd (Or.inr (Or.inl rfl))

theorem isPrefixOf_append_of (p a b : Chars) (h : p.isPrefixOf a = true) :
    p.isPrefixOf (a ++ b) = true := by
  induction p generalizing a with
  | nil => simp [List.isPrefixOf]
  | cons c cs ih =>
    cases a with
    | nil => simp [List.isPrefixOf] at h
    | cons x xs =>
      simp only [List.isPrefixOf, Bool.and_eq_true] at h ⊢
      exact ⟨h.1, by simpa using ih xs h.2⟩

theorem endsWithStr_mono (x y t : String) (h : endsWithStr y t = true) :
    endsWithStr (x ++ y) t = true := by
  unfold endsWithStr at h ⊢
  show t.data.reverse.isPrefixOf (x ++ y).data.reverse = true
  have hd : (x ++ y).data = x.data ++ y.data := rfl
  rw [hd, List.reverse_append]
  exact isPrefixOf_append_of _ _ _ h

theorem baseName_endsWith_gz (s : String) :
    endsWithStr (baseName (s ++ ".gz")) ".gz" = true := by
  unfold baseName endsWithStr
  show List.isPrefixOf ['z', 'g', '.']
    ((((s ++ ".gz").data.reverse.takeWhile (fun c => c ≠ '/')).reverse).reverse)
    = true
  rw [List.reverse_reverse]
  have hd : (s ++ ".gz").data.reverse = 'z' :: 'g' :: '.' :: s.data.reverse := by
    show (s.data ++ ['.', 'g', 'z']).reverse = _
    rw [List.reverse_append]
    rfl
  rw [hd]
  show List.isPrefixOf ['z', 'g', '.']
    ('z' :: 'g' :: '.' :: s.data.reverse.takeWhile (fun c => c ≠ '/')) = true
  simp [List.isPrefixOf]

theorem head_of_isPrefixOf (c : Char) (p l : Chars)
    (h : (c :: p).isPrefixOf l = true) : ∃ t, l = c :: t := by
  cases l with
  | nil => simp [List.isPrefixOf] at h
  | cons b bs =>
    simp only [List.isPrefixOf, Bool.and_eq_true, beq_iff_eq] at h
    exact ⟨bs, by rw [h.1]⟩

theorem endsWith_gz_not_gpg (s : String) (h : endsWithStr s ".gz" = true) :
    endsWithStr s ".gpg" = false := by
  unfold endsWithStr at h ⊢
  replace h : List.isPrefixOf ['z', 'g', '.'] s.data.reverse = true := h
  obtain ⟨t, ht⟩ := head_of_isPrefixOf 'z' _ _ h
  show List.isPrefixOf ['g', 'p', 'g', '.'] s.data.reverse = false
  rw [ht]
  simp [List.isPrefixOf]

/-- Claim C2 (code bug): for every compressed, unencrypted artifact
produced by `performBackup` for a mysql target, `BackupManager.testRestore`
first decompresses the `.gz` artifact into a temporary file, and then
`testRestoreMysql` runs gunzip again on the already-decompressed bytes,
which fails: the verify-restore reports
"Failed to decompress backup file" without ever touching the server (the
database list is returned unchanged), contradicting the claim that it
succeeds. -/
theorem verify_restore_double_decompress (cfg : AppConfig) (db : DbCfg)
    (env : PBEnv) (hash : Content → Nat) (fs0 : FS) (menv : ManagerEnv)
    (dbs : List String) (o : RestoreOutcome) (d : String) (dc : Content)
    (hty : db.dbType = "mysql")
    (hd : env.dumpResult = some d)
    (hm : hasSqlMarker d = true)
    (hanch : anchoredMarker fileJsKws d.data = true)
    (hc : env.compressOk = true)
    (hdc : env.decompResult = some dc)
    (henc : encryptionConfigured db cfg = false)
    (hsd : cfg.backupDir ++ "/" ++ db.name ++ "/hourly/" ++
      baseName (env.sqlPath ++ ".gz") ≠ env.sqlPath)
    (hdg : env.decompPath ≠ env.sqlPath ++ ".gz") :
    (performBackup cfg db env hash fs0).1 =
      .ok (cfg.backupDir ++ "/" ++ db.name ++ "/hourly/" ++
        baseName (env.sqlPath ++ ".gz")) ∧
    (managerTestRestore cfg db
      (cfg.backupDir ++ "/" ++ db.name ++ "/hourly/" ++
        baseName (env.sqlPath ++ ".gz"))
      menv (performBackup cfg db env hash fs0).2 dbs o).1 =
      .error "Failed to decompress backup file" ∧
    (managerTestRestore cfg db
      (cfg.backupDir ++ "/" ++ db.name ++ "/hourly/" ++
        baseName (env.sqlPath ++ ".gz"))
      menv (performBackup cfg db env hash fs0).2 dbs o).2.2 = dbs := by
  have hgzsql : ¬(env.sqlPath ++ ".gz" = env.sqlPath) :=
    append_ne_self env.sqlPath ".gz" (by decide)
  have hgzdp : ¬(env.sqlPath ++ ".gz" = env.decompPath) := fun h => hdg h.symm
  -- the run reduces to finishBackup on the unencrypted path
  have hrunfold : performBackup cfg db env hash fs0 =
      finishBackup cfg db env.sqlPath env.timestamp hash
        (delFile (delFile (setFile (setFile (setFile (setFile
          (setFile fs0 env.sqlPath (Content.sql "")) env.sqlPath
          (Content.sql d)) (env.sqlPath ++ ".gz") (Content.gz (Content.sql d)))
          env.decompPath (Content.sql "")) env.decompPath dc)
          env.decompPath) env.sqlPath)
        (env.sqlPath ++ ".gz") false (recipientsOf db cfg) := by
    simp only [performBackup, hd, hm, hc, hdc, henc, Bool.not_true,
      Bool.false_eq_true, if_false]
  have hgzval : (delFile (delFile (setFile (setFile (setFile (setFile
      (setFile fs0 env.sqlPath (Content.sql "")) env.sqlPath
      (Content.sql d)) (env.sqlPath ++ ".gz") (Content.gz (Content.sql d)))
      env.decompPath (Content.sql "")) env.decompPath dc)
      env.decompPath) env.sqlPath) (env.sqlPath ++ ".gz") =
      some (Content.gz (Content.sql d)) := by
    simp [delFile, setFile, hgzsql, hgzdp]
  have hok : (performBackup cfg db env hash fs0).1 =
      .ok (cfg.backupDir ++ "/" ++ db.name ++ "/hourly/" ++
        baseName (env.sqlPath ++ ".gz")) := by
    rw [hrunfold]
    simp only [finishBackup, hgzval]
  have hart : (performBackup cfg db env hash fs0).2
      (cfg.backupDir ++ "/" ++ db.name ++ "/hourly/" ++
        baseName (env.sqlPath ++ ".gz")) = some (.gz (.sql d)) := by
    rw [hrunfold]
    simp only [finishBackup, hgzval]
    simp [delFile, setFile, renameFile, hsd, hgzsql, hgzdp,
      self_ne_append (cfg.backupDir ++ "/" ++ db.name ++ "/hourly/" ++
        baseName (env.sqlPath ++ ".gz")) ".meta.json" (by decide), hgzval]
  -- the stored artifact name ends in .gz and not .gpg
  have hgzends : endsWithStr (cfg.backupDir ++ "/" ++ db.name ++ "/hourly/" ++
      baseName (env.sqlPath ++ ".gz")) ".gz" = true :=
    endsWithStr_mono _ _ _ (baseName_endsWith_gz env.sqlPath)
  have hgpgends : endsWithStr (cfg.backupDir ++ "/" ++ db.name ++ "/hourly/" ++
      baseName (env.sqlPath ++ ".gz")) ".gpg" = false :=
    endsWith_gz_not_gpg _ hgzends
  refine ⟨hok, ?_, ?_⟩ <;>
  · simp only [managerTestRestore, hgpgends, Bool.false_eq_true, if_false,
      hgzends, if_true, decompressBackupFile, Bool.not_true, hart,
      gunzipModel, contentPreviewOk, hanch]
    simp only [restoreBackup, hty, if_pos, testRestoreMysql, setFile,
      if_pos rfl, gunzipModel]

set_option maxRecDepth 40000 in
/-- Claim C5 counterexample: a run whose scratch decompression yields
bytes failing the marker check still commits successfully and stores the
artifact — no compression error is raised. -/
theorem performBackup_stores_unchecked_decomp :
    env0.decompResult = some (Content.sql "XYZZY") ∧
    contentPreviewOk fileJsKws (Content.sql "XYZZY") = false ∧
    hasSqlMarker "XYZZY" = false ∧
    (performBackup cfg0 db0 env0 hash0 emptyFS).1 =
      .ok "/backups/mydb/hourly/sql1.gz" ∧
    (performBackup cfg0 db0 env0 hash0 emptyFS).2
      "/backups/mydb/hourly/sql1.gz" = some (.gz (.sql d0)) :=
  ⟨rfl, by decide, by decide, by decide, by decide⟩

set_option maxRecDepth 40000 in
/-- Claim C8 counterexample: when encryption fails, the commit aborts
but the compressed `.gz` scratch file remains on disk. -/
theorem encryption_failure_leaves_gz_scratch :
    (performBackup cfgEnc db0 {env0 with encryptOk := false} hash0 emptyFS).1 =
      .error "Encryption failed" ∧
    (performBackup cfgEnc db0 {env0 with encryptOk := false} hash0 emptyFS).2
      "/tmp/sql1.gz" = some (.gz (.sql d0)) :=
  ⟨by decide, by decide⟩

/-- Claim C8 (amended): the raw SQL temporary file is removed on every
path, success or failure (the tmp-promise cleanup in the finally block),
and on a successful commit the compressed scratch, the decompression
temporary and the encryption output are all gone; but on a failure after
compression the `.gz` scratch can be left behind (see the
counterexample). -/
theorem performBackup_scratch_cleanup (cfg : AppConfig) (db : DbCfg)
    (env : PBEnv) (hash : Content → Nat) (fs0 : FS) (dest : String)
    (hgzm : env.sqlPath ++ ".gz" ≠ dest ++ ".meta.json")
    (hgzd : env.sqlPath ++ ".gz" ≠ dest)
    (hdpm : env.decompPath ≠ dest ++ ".meta.json")
    (hdpd : env.decompPath ≠ dest)
    (hfpm : env.sqlPath ++ ".gz" ++ ".gpg" ≠ dest ++ ".meta.json")
    (hfpd : env.sqlPath ++ ".gz" ++ ".gpg" ≠ dest)
    (hdg : env.decompPath ≠ env.sqlPath ++ ".gz")
    (hdgp : env.decompPath ≠ env.sqlPath ++ ".gz" ++ ".gpg") :
    (performBackup cfg db env hash fs0).2 env.sqlPath = none ∧
    ((performBackup cfg db env hash fs0).1 = .ok dest →
      (performBackup cfg db env hash fs0).2 (env.sqlPath ++ ".gz") = none ∧
      (performBackup cfg db env hash fs0).2 env.decompPath = none ∧
      (encryptionConfigured db cfg = true →
        (performBackup cfg db env hash fs0).2
          (env.sqlPath ++ ".gz" ++ ".gpg") = none)) :=
  ⟨performBackup_sql_tmp_removed cfg db env hash fs0,
   fun hrun => performBackup_success_cleanup cfg db env hash fs0 dest hrun
     hgzm hgzd hdpm hdpd hfpm hfpd hdg hdgp⟩

-- witnesses

set_option maxRecDepth 40000 in
theorem verify_restore_double_decompress_witness :
    db0.dbType = "mysql" ∧
    ((performBackup cfg0 db0 env0 hash0 emptyFS).1 =
      .ok (cfg0.backupDir ++ "/" ++ db0.name ++ "/hourly/" ++
        baseName (env0.sqlPath ++ ".gz")) ∧
    (managerTestRestore cfg0 db0
      (cfg0.backupDir ++ "/" ++ db0.name ++ "/hourly/" ++
        baseName (env0.sqlPath ++ ".gz"))
      menv0 (performBackup cfg0 db0 env0 hash0 emptyFS).2 []
      ⟨true, false, true⟩).1 = .error "Failed to decompress backup file" ∧
    (managerTestRestore cfg0 db0
      (cfg0.backupDir ++ "/" ++ db0.name ++ "/hourly/" ++
        baseName (env0.sqlPath ++ ".gz"))
      menv0 (performBackup cfg0 db0 env0 hash0 emptyFS).2 []
      ⟨true, false, true⟩).2.2 = []) :=
  ⟨rfl, verify_restore_double_decompress cfg0 db0 env0 hash0 emptyFS menv0 []
    ⟨true, false, true⟩ d0 (Content.sql "XYZZY") rfl rfl (by decide)
    (by decide) rfl rfl (by decide) (by decide) (by decide)⟩

set_option maxRecDepth 40000 in
theorem pruneTier_retention_witness :
    0 < 2 ∧
    ((filesToRemove dirW 2).length = (backupFilesOf dirW).length - 2 ∧
    ((backupFilesOf dirW).length ≤ 2 → pruneTier dirW 2 = dirW) ∧
    (2 < (backupFilesOf dirW).length →
        (backupFilesOf (pruneTier dirW 2)).length = 2 ∧
        ∀ f ∈ filesToRemove dirW 2,
          ∀ g ∈ backupFilesOf (pruneTier dirW 2), f.2 < g.2)) :=
  ⟨by decide, pruneTier_retention dirW 2 (by decide) (by decide) (by decide)⟩

set_option maxRecDepth 40000 in
theorem performBackup_checksum_witness :
    (performBackup cfg0 db0 env0 hash0 emptyFS).1 =
      .ok "/backups/mydb/hourly/sql1.gz" ∧
    (∃ c m,
      (performBackup cfg0 db0 env0 hash0 emptyFS).2
        "/backups/mydb/hourly/sql1.gz" = some c ∧
      (performBackup cfg0 db0 env0 hash0 emptyFS).2
        ("/backups/mydb/hourly/sql1.gz" ++ ".meta.json") =
        some (.metaJson m) ∧
      m.sha256 = hash0 c) :=
  ⟨by decide, performBackup_checksum cfg0 db0 env0 hash0 emptyFS
    "/backups/mydb/hourly/sql1.gz" (by decide) (by decide) (by decide)⟩

set_option maxRecDepth 40000 in
theorem performBackup_ignores_decomp_bytes_witness :
    env0.dumpResult = some d0 ∧
    (performBackup cfg0 db0 {env0 with decompResult := some (Content.sql "A")}
        hash0 emptyFS =
      performBackup cfg0 db0 {env0 with decompResult := some (Content.sql "B")}
        hash0 emptyFS ∧
    (performBackup cfg0 db0 {env0 with decompResult := none} hash0
        emptyFS).1 = .error "incorrect header check") :=
  ⟨rfl, performBackup_ignores_decomp_bytes cfg0 db0 env0 hash0 emptyFS
    (Content.sql "A") (Content.sql "B") d0 rfl (by decide) rfl⟩

theorem mysql_split_literal_safe_witness :
    (∀ c ∈ "a;b".data, c ≠ '\'' ∧ c ≠ '"' ∧ c ≠ '\\') ∧
    splitSqlStatements ("SELECT '".data ++ "a;b".data ++ "';".data) =
      ["SELECT '".data ++ "a;b".data ++ "';".data] :=
  ⟨by decide, mysql_split_literal_safe "a;b".data (by decide)⟩

theorem verify_restore_db_absent_witness :
    "restore_99" ∉ ["prod"] ∧
    ("restore_99" ∉ (testRestoreMysql
        (some (.gz (.sql "CREATE TABLE t (x int);"))) "restore_99" ["prod"]
        ⟨true, false, true⟩).2 ∧
    "restore_99" ∉ (testRestorePostgres
        (some (.gz (.sql "CREATE TABLE t (x int);"))) "restore_99" ["prod"]
        ⟨true, false, true⟩).2) :=
  ⟨by decide, verify_restore_db_absent
    (some (.gz (.sql "CREATE TABLE t (x int);"))) "restore_99" ["prod"]
    ⟨true, false, true⟩ (by decide)⟩

set_option maxRecDepth 40000 in
theorem performBackup_scratch_cleanup_witness :
    ("/tmp/sql1" ++ ".gz" ≠ "/backups/mydb/hourly/sql1.gz") ∧
    ((performBackup cfg0 db0 env0 hash0 emptyFS).2 env0.sqlPath = none ∧
    ((performBackup cfg0 db0 env0 hash0 emptyFS).1 =
        .ok "/backups/mydb/hourly/sql1.gz" →
      (performBackup cfg0 db0 env0 hash0 emptyFS).2
        (env0.sqlPath ++ ".gz") = none ∧
      (performBackup cfg0 db0 env0 hash0 emptyFS).2 env0.decompPath = none ∧
      (encryptionConfigured db0 cfg0 = true →
        (performBackup cfg0 db0 env0 hash0 emptyFS).2
          (env0.sqlPath ++ ".gz" ++ ".gpg") = none))) :=
  ⟨by decide, performBackup_scratch_cleanup cfg0 db0 env0 hash0 emptyFS
    "/backups/mydb/hourly/sql1.gz" (by decide) (by decide) (by decide)
    (by decide) (by decide) (by decide) (by decide) (by decide)⟩

end PowerBackup
